import Mathlib

/-!
Shallow embedding of the client-side load-balancing core of the
`faceair/request` Go library (`src/request.go`): the request-level
balancer (`HTTPBalancer`), the connection-level balancer (`DNSBalancer`),
the resolution cache, the retry-classification policy and the simple
round-robin upstream selector of `Client.Do`.

Modelling conventions:
- Go `error` values are the inductive `GoError`; fallible operations
  return `Except GoError α` or a `(Option α × Option GoError)` pair when
  the Go code can return `(nil, nil)`.
- Wall-clock time (`time.Now()`) is a `Nat` parameter `now`, assumed not
  to advance during one call; `time.Duration` is a `Nat`.
- The external collaborators `net.LookupHost`, the wrapped sender
  (`HTTPClient.Do`) and the wrapped dialer are oracle function
  parameters.  A Go slice is a `List`; the nil/empty-slice distinction
  collapses (`net.LookupHost` results are taken to be non-nil).
- The shared `safeRnd` generator's draws are modelled by caller-supplied
  shuffle functions; theorems that need "a shuffle is a permutation"
  take that as an explicit hypothesis.
- Go maps are association lists with first-match lookup; assignment
  prepends, so the newest binding wins (Go map overwrite semantics).
-/

namespace FaceairRequest

/-- Go `error` values relevant to the balancer code: `*net.OpError`
(with its `Op` field), `*net.DNSError` (fields `Err`, `Name`,
`IsNotFound`), an error produced by `fmt.Errorf`-style wrapping, and an
unstructured error. -/
inductive GoError where
  | opError (op : String) (msg : String)
  | dnsError (err : String) (name : String) (isNotFound : Bool)
  | wrapped (msg : String) (inner : GoError)
  | simple (msg : String)
deriving DecidableEq, Repr

/-- Model of `errors.As(err, &opErr)` for target type `*net.OpError`: walks the
unwrap chain and returns the `Op` field of the first `*net.OpError`
found, if any. -/
def errorsAsOpError : GoError → Option String
  | .opError op _ => some op
  | .wrapped _ inner => errorsAsOpError inner
  | _ => none

/-- Model of `isRetryableError` (src/request.go:582-588): true iff `errors.As`
finds a `*net.OpError` and its `Op` equals `"dial"`. -/
def isRetryableError (e : GoError) : Bool :=
  match errorsAsOpError e with
  | some op => op == "dial"
  | none => false

/-- Model of `newNoSuchHostError` (src/request.go:578-580). -/
def newNoSuchHostError (host : String) : GoError :=
  .dnsError ("no such host for \"" ++ host ++ "\"") host true

/-- Splits a char list at its last colon: `some (before, after)`, or
`none` when no colon occurs. -/
def lastColonSplit : List Char → Option (List Char × List Char)
  | [] => none
  | c :: cs =>
    match lastColonSplit cs with
    | some (h, p) => some (c :: h, p)
    | none => if c = ':' then some ([], cs) else none

/-- Model of `net.SplitHostPort` for the non-bracketed (no IPv6 literal) case:
split at the last colon; error when there is no colon or the host part
still contains one.  On error Go returns empty host and port strings,
which the callers here rely on. -/
def splitHostPort (hostport : String) : Except GoError (String × String) :=
  match lastColonSplit hostport.toList with
  | none => .error (.simple (hostport ++ ": missing port in address"))
  | some (h, p) =>
    if h.contains ':' then .error (.simple (hostport ++ ": too many colons in address"))
    else .ok (String.mk h, String.mk p)

/-- Model of `net.JoinHostPort`: brackets the host when it contains a colon. -/
def joinHostPort (host port : String) : String :=
  if host.toList.contains ':' then "[" ++ host ++ "]:" ++ port
  else host ++ ":" ++ port

/-- The domain a host string resolves by: `SplitHostPort`'s host part,
falling back to the whole string when that part is empty (which covers
the error case, where Go leaves `domain` empty) — src/request.go:496-499. -/
def hostDomain (host : String) : String :=
  match splitHostPort host with
  | .ok (d, _) => if d = "" then host else d
  | .error _ => host

/-- The port part of a host string; empty when `SplitHostPort` failed —
src/request.go:496. -/
def hostPort (host : String) : String :=
  match splitHostPort host with
  | .ok (_, p) => p
  | .error _ => ""

/-- Model of `safeRnd.Shuffle` (src/request.go:562-569) applied to a list: a
no-op for fewer than two elements, otherwise the supplied draw. -/
def safeShuffle (f : List String → List String) (l : List String) : List String :=
  if l.length ≤ 1 then l else f l

/-- Connections and responses are abstract tokens. -/
abbrev Conn := Nat

/-- See `Conn`. -/
abbrev Response := Nat

/-- Success test for `Except`. -/
def exceptOk {α : Type} : Except GoError α → Bool
  | .ok _ => true
  | .error _ => false

/-- Model of `DNSBalancer` (src/request.go:415-425): wraps a dial primitive; its
`safeRnd` draw is modelled by `shuffle`. -/
structure DNSBalancer where
  shuffle : List String → List String
  dialContext : String → String → Except GoError Conn

/-- The dial loop of `DNSBalancer.DialContext` (src/request.go:446-454):
try each address in order, return the first successful connection, else
the last error (`(nil, lastErr)` in Go becomes the pair of options). -/
def dialLoop (dial : String → String → Except GoError Conn) (network port : String) :
    List String → Option GoError → Option Conn × Option GoError
  | [], lastErr => (none, lastErr)
  | ip :: rest, lastErr =>
    match dial network (joinHostPort ip port) with
    | .ok conn => (some conn, none)
    | .error e => dialLoop dial network port rest (some e)

/-- Model of `DNSBalancer.DialContext` (src/request.go:427-455). -/
def DNSBalancer.DialContext (lb : DNSBalancer)
    (lookupHost : String → Except GoError (List String))
    (network addr : String) : Option Conn × Option GoError :=
  match splitHostPort addr with
  | .error e => (none, some e)
  | .ok (host, port) =>
    match lookupHost host with
    | .error e => (none, some e)
    | .ok ips =>
      if ips.isEmpty then (none, some (newNoSuchHostError host))
      else dialLoop lb.dialContext network port (safeShuffle lb.shuffle ips) none

/-- Spec-level description of the dial loop (spec §4.3 steps 3-4): the
first address that dials successfully yields its connection; if none
does, the last address's error is returned. -/
def firstSuccessElseLast (dial : String → Except GoError Conn) (l : List String) :
    Option Conn × Option GoError :=
  match l.find? (fun ip => exceptOk (dial ip)) with
  | some ip =>
    match dial ip with
    | .ok c => (some c, none)
    | .error _ => (none, none)
  | none =>
    match l.getLast? with
    | some ip =>
      match dial ip with
      | .ok _ => (none, none)
      | .error e => (none, some e)
    | none => (none, none)

/-- The outgoing request's fields the balancer rewrites: `req.Host` and
`req.URL.Host` (src/request.go:538-539). -/
structure Request where
  host : String
  urlHost : String
deriving DecidableEq, Repr

/-- The request as mutated for one attempt: `req.Host = host`,
`req.URL.Host = hostname` where the port is joined when present
(src/request.go:533-539). -/
def attemptRequest (host port ip : String) : Request :=
  { host := host, urlHost := if port = "" then ip else joinHostPort ip port }

/-- Model of `HTTPBalancer` (src/request.go:457-465); the two shuffle fields
model the `safeRnd` draws used on the host list and on each address
list. -/
structure HTTPBalancer where
  shuffleHosts : List String → List String
  shuffleIPs : List String → List String
  hosts : List String
  cacheTTL : Nat
  cachedIPs : List (String × List String)
  cachedExpiry : List (String × Nat)

/-- Model of `newHTTPBalancer` (src/request.go:467-476). -/
def newHTTPBalancer (shuffleHosts shuffleIPs : List String → List String)
    (targetHosts : List String) (cacheTTL : Nat) : HTTPBalancer :=
  { shuffleHosts := shuffleHosts, shuffleIPs := shuffleIPs, hosts := targetHosts,
    cacheTTL := cacheTTL, cachedIPs := [], cachedExpiry := [] }

/-- Go map assignment `m[k] = v`: the newest binding shadows older ones
for `List.lookup`. -/
def mapInsert {β : Type} (k : String) (v : β) (m : List (String × β)) : List (String × β) :=
  (k, v) :: m

/-- The mutable state threaded through one `HTTPBalancer.Do` call: the
two cache maps, the caller's request (mutated in place) and the
`finalErr` accumulator. -/
structure DoState where
  cachedIPs : List (String × List String)
  cachedExpiry : List (String × Nat)
  req : Request
  finalErr : Option GoError

/-- The cache read of `HTTPBalancer.Do` (src/request.go:501-508): an
address list is obtained from the cache only when an expiry entry
exists, is still in the future, and the address map has the key (a Go
map miss yields a nil slice, which the code treats as "no cached
value"). -/
def cacheHit (cachedExpiry : List (String × Nat)) (cachedIPs : List (String × List String))
    (now : Nat) (host : String) : Option (List String) :=
  match List.lookup host cachedExpiry with
  | some exp => if now < exp then List.lookup host cachedIPs else none
  | none => none

/-- The inner address loop of `HTTPBalancer.Do` (src/request.go:533-548):
mutate the request, send; success returns the response; a non-retryable
error returns that error; a retryable error is recorded in `finalErr`
and the next address is tried.  Yields the mutated request, an early
answer if the loop returned, and the updated `finalErr`. -/
def tryIPs (send : Request → Except GoError Response) (host port : String) :
    List String → Request → Option GoError →
    Request × Option (Option Response × Option GoError) × Option GoError
  | [], req, finalErr => (req, none, finalErr)
  | ip :: rest, req, finalErr =>
    let req' := attemptRequest host port ip
    match send req' with
    | .ok resp => (req', some (some resp, none), finalErr)
    | .error e =>
      if isRetryableError e then tryIPs send host port rest req' (some e)
      else (req', some (none, some e), finalErr)

/-- One iteration of the host loop of `HTTPBalancer.Do`
(src/request.go:493-549) for `host`: cache lookup, fresh resolution and
cache write on miss (note the write happens before the zero-address
check, and the subsequent in-place shuffle of a freshly resolved list
also reorders the cached slice, modelled by the second `mapInsert`),
then the inner address loop.  Returns the new state and an early answer
when the loop body returned out of `Do`. -/
def processHost (lookupHost : String → Except GoError (List String))
    (send : Request → Except GoError Response)
    (shuffleIPs : List String → List String)
    (cacheTTL : Nat) (now : Nat) (host : String) (st : DoState) :
    DoState × Option (Option Response × Option GoError) :=
  match cacheHit st.cachedExpiry st.cachedIPs now host with
  | some ips =>
    if ips.isEmpty then
      ({ st with finalErr := some (newNoSuchHostError host) }, none)
    else
      let ips' := safeShuffle shuffleIPs ips
      let r := tryIPs send host (hostPort host) ips' st.req st.finalErr
      ({ st with req := r.1, finalErr := r.2.2 }, r.2.1)
  | none =>
    match lookupHost (hostDomain host) with
    | .error e => ({ st with finalErr := some e }, none)
    | .ok ips =>
      let cIPs := mapInsert host ips st.cachedIPs
      let cExp := mapInsert host (now + cacheTTL) st.cachedExpiry
      if ips.isEmpty then
        ({ st with cachedIPs := cIPs, cachedExpiry := cExp,
                   finalErr := some (newNoSuchHostError host) }, none)
      else
        let ips' := safeShuffle shuffleIPs ips
        let cIPs' := mapInsert host ips' cIPs
        let r := tryIPs send host (hostPort host) ips' st.req st.finalErr
        ({ st with cachedIPs := cIPs', cachedExpiry := cExp,
                   req := r.1, finalErr := r.2.2 }, r.2.1)

/-- The host loop of `HTTPBalancer.Do` (src/request.go:493-549). -/
def doHosts (lookupHost : String → Except GoError (List String))
    (send : Request → Except GoError Response)
    (shuffleIPs : List String → List String) (cacheTTL : Nat) (now : Nat) :
    List String → DoState → DoState × Option (Option Response × Option GoError)
  | [], st => (st, none)
  | host :: rest, st =>
    match processHost lookupHost send shuffleIPs cacheTTL now host st with
    | (st', some ans) => (st', some ans)
    | (st', none) => doHosts lookupHost send shuffleIPs cacheTTL now rest st'

/-- The host list `HTTPBalancer.Do` iterates over
(src/request.go:479-489): the configured list itself when it has at
most one member, otherwise a shuffled copy. -/
def doHostsList (lb : HTTPBalancer) : List String :=
  if lb.hosts.length > 1 then lb.shuffleHosts lb.hosts else lb.hosts

/-- The state at the top of `HTTPBalancer.Do`'s host loop. -/
def initState (lb : HTTPBalancer) (req : Request) : DoState :=
  { cachedIPs := lb.cachedIPs, cachedExpiry := lb.cachedExpiry,
    req := req, finalErr := none }

/-- Model of `HTTPBalancer.Do` (src/request.go:478-551).  Returns the Go result
pair `(resp, err)`, the balancer with its updated caches, and the
request as mutated by the call. -/
def HTTPBalancer.Do (lb : HTTPBalancer)
    (lookupHost : String → Except GoError (List String))
    (send : Request → Except GoError Response)
    (now : Nat) (req : Request) :
    (Option Response × Option GoError) × HTTPBalancer × Request :=
  match doHosts lookupHost send lb.shuffleIPs lb.cacheTTL now (doHostsList lb) (initState lb req) with
  | (st, some a) =>
    (a, { lb with cachedIPs := st.cachedIPs, cachedExpiry := st.cachedExpiry }, st.req)
  | (st, none) =>
    ((none, st.finalErr), { lb with cachedIPs := st.cachedIPs, cachedExpiry := st.cachedExpiry }, st.req)

/-- The errors the inner address loop records, in order of occurrence:
each retryable failure, and a final non-retryable failure if one aborts
the loop. -/
def tryIPsErrors (send : Request → Except GoError Response) (host port : String) :
    List String → List GoError
  | [] => []
  | ip :: rest =>
    match send (attemptRequest host port ip) with
    | .ok _ => []
    | .error e =>
      if isRetryableError e then e :: tryIPsErrors send host port rest else [e]

/-- The requests the inner address loop hands to the wrapped sender, in
order. -/
def tryIPsSends (send : Request → Except GoError Response) (host port : String) :
    List String → List Request
  | [] => []
  | ip :: rest =>
    let r := attemptRequest host port ip
    match send r with
    | .ok _ => [r]
    | .error e =>
      if isRetryableError e then r :: tryIPsSends send host port rest else [r]

/-- The errors one host's iteration encounters, in order: a resolution
failure, a zero-address "no such host", or the inner loop's errors. -/
def processHostErrors (lookupHost : String → Except GoError (List String))
    (send : Request → Except GoError Response)
    (shuffleIPs : List String → List String)
    (cacheTTL : Nat) (now : Nat) (host : String) (st : DoState) : List GoError :=
  match cacheHit st.cachedExpiry st.cachedIPs now host with
  | some ips =>
    if ips.isEmpty then [newNoSuchHostError host]
    else tryIPsErrors send host (hostPort host) (safeShuffle shuffleIPs ips)
  | none =>
    match lookupHost (hostDomain host) with
    | .error e => [e]
    | .ok ips =>
      if ips.isEmpty then [newNoSuchHostError host]
      else tryIPsErrors send host (hostPort host) (safeShuffle shuffleIPs ips)

/-- The requests one host's iteration hands to the wrapped sender. -/
def processHostSends (lookupHost : String → Except GoError (List String))
    (send : Request → Except GoError Response)
    (shuffleIPs : List String → List String)
    (cacheTTL : Nat) (now : Nat) (host : String) (st : DoState) : List Request :=
  match cacheHit st.cachedExpiry st.cachedIPs now host with
  | some ips =>
    if ips.isEmpty then []
    else tryIPsSends send host (hostPort host) (safeShuffle shuffleIPs ips)
  | none =>
    match lookupHost (hostDomain host) with
    | .error _ => []
    | .ok ips =>
      if ips.isEmpty then []
      else tryIPsSends send host (hostPort host) (safeShuffle shuffleIPs ips)

/-- All errors a `doHosts` run encounters, in order. -/
def doHostsErrors (lookupHost : String → Except GoError (List String))
    (send : Request → Except GoError Response)
    (shuffleIPs : List String → List String) (cacheTTL : Nat) (now : Nat) :
    List String → DoState → List GoError
  | [], _ => []
  | host :: rest, st =>
    let es := processHostErrors lookupHost send shuffleIPs cacheTTL now host st
    match processHost lookupHost send shuffleIPs cacheTTL now host st with
    | (_, some _) => es
    | (st', none) => es ++ doHostsErrors lookupHost send shuffleIPs cacheTTL now rest st'

/-- All requests a `doHosts` run hands to the wrapped sender, in order. -/
def doHostsSends (lookupHost : String → Except GoError (List String))
    (send : Request → Except GoError Response)
    (shuffleIPs : List String → List String) (cacheTTL : Nat) (now : Nat) :
    List String → DoState → List Request
  | [], _ => []
  | host :: rest, st =>
    let rs := processHostSends lookupHost send shuffleIPs cacheTTL now host st
    match processHost lookupHost send shuffleIPs cacheTTL now host st with
    | (_, some _) => rs
    | (st', none) => rs ++ doHostsSends lookupHost send shuffleIPs cacheTTL now rest st'

/-- The requests one `HTTPBalancer.Do` call dispatches, in order. -/
def DoSends (lb : HTTPBalancer)
    (lookupHost : String → Except GoError (List String))
    (send : Request → Except GoError Response)
    (now : Nat) (req : Request) : List Request :=
  doHostsSends lookupHost send lb.shuffleIPs lb.cacheTTL now (doHostsList lb) (initState lb req)

/-- The last of a list of errors, or a default accumulator: the value
`finalErr` holds after recording each error of the list in turn. -/
def lastErrOr (fe : Option GoError) : List GoError → Option GoError
  | [] => fe
  | e :: es => lastErrOr (some e) es

/-- A setup-time `panic` in `Client.EnableHTTPBalance`: either the
explicit message or a URL-parse error (src/request.go:115-123). -/
inductive SetupPanic where
  | message (msg : String)
  | parseFailure (e : GoError)
deriving DecidableEq, Repr

/-- The host-collection loop of `Client.EnableHTTPBalance`
(src/request.go:118-125): parse each base URL in order, stopping at the
first parse error (a panic in Go). -/
def collectHosts (parseHost : String → Except GoError String) :
    List String → Except GoError (List String)
  | [] => .ok []
  | u :: us =>
    match parseHost u with
    | .error e => .error e
    | .ok h =>
      match collectHosts parseHost us with
      | .error e => .error e
      | .ok hs => .ok (h :: hs)

/-- Model of `Client.EnableHTTPBalance` (src/request.go:106-128), modulo the
transport TLS tweak: panics (modelled as `Except.error`) on an empty
base-URL list or a URL-parse failure, otherwise installs an
`HTTPBalancer` over the parsed hosts.  `parseHost` models
`url.Parse(u).Host`. -/
def enableHTTPBalance (parseHost : String → Except GoError String)
    (shuffleHosts shuffleIPs : List String → List String)
    (baseURLs : List String) (cacheExpire : Nat) : Except SetupPanic HTTPBalancer :=
  if baseURLs.isEmpty then .error (.message "http balancer requires base urls")
  else
    match collectHosts parseHost baseURLs with
    | .error e => .error (.parseFailure e)
    | .ok hosts => .ok (newHTTPBalancer shuffleHosts shuffleIPs hosts cacheExpire)

/-- The base-URL selection of `Client.Do` (src/request.go:334-343).
`hasScheme` stands for the negation of `u != nil && u.Scheme == ""` for
the parsed URI.  Returns the possibly rewritten URI and the new
round-robin counter.  (`getD` with default `""` stands in for Go's
indexing, which would panic out of range; the theorems keep the index
in range.) -/
def resolveURI (baseURLs : List String) (currIndex : Nat) (hasScheme : Bool)
    (uri : String) : String × Nat :=
  if hasScheme then (uri, currIndex)
  else if baseURLs.length = 1 then (baseURLs.getD 0 "" ++ uri, currIndex)
  else if baseURLs.length > 1 then
    (baseURLs.getD currIndex "" ++ uri, (currIndex + 1) % baseURLs.length)
  else (uri, currIndex)

/-- Runs `n` consecutive, non-interleaved scheme-less dispatches through
`Client.Do`'s base-URL selection, collecting the chosen URIs. -/
def rrDispatches (baseURLs : List String) (uri : String) : Nat → Nat → List String
  | 0, _ => []
  | n + 1, i =>
    let r := resolveURI baseURLs i false uri
    r.1 :: rrDispatches baseURLs uri n r.2

/-! ## Helper lemmas -/

theorem lastErrOr_append (es₁ es₂ : List GoError) :
    ∀ fe, lastErrOr fe (es₁ ++ es₂) = lastErrOr (lastErrOr fe es₁) es₂ := by
  induction es₁ with
  | nil => intro fe; rfl
  | cons e es ih => intro fe; simpa [lastErrOr] using ih (some e)

theorem lastErrOr_eq_getLast (es : List GoError) (hne : es ≠ []) :
    ∀ fe, lastErrOr fe es = es.getLast? := by
  induction es with
  | nil => exact absurd rfl hne
  | cons e es ih =>
    intro fe
    cases es with
    | nil => simp [lastErrOr]
    | cons e' es' =>
      rw [List.getLast?_cons_cons]
      exact ih (by simp) (some e)

theorem getLastD_cons {α : Type} (d a : α) (l : List α) :
    ((a :: l).getLast?).getD d = (l.getLast?).getD a := by
  cases l with
  | nil => simp
  | cons b t =>
    rw [List.getLast?_cons_cons]
    have hs : ((b :: t).getLast?).isSome = true := List.getLast?_isSome.mpr (by simp)
    obtain ⟨x, hx⟩ := Option.isSome_iff_exists.mp hs
    rw [hx]
    rfl

theorem getLastD_append {α : Type} (d : α) (l₁ l₂ : List α) :
    (((l₁ ++ l₂).getLast?)).getD d = (l₂.getLast?).getD ((l₁.getLast?).getD d) := by
  rw [List.getLast?_append]
  cases h : l₂.getLast? with
  | none => simp
  | some a => simp

theorem option_or_getD {α : Type} (o₁ o₂ : Option α) (d : α) :
    (o₁.or o₂).getD d = o₁.getD (o₂.getD d) := by
  cases o₁ <;> simp

theorem safeShuffle_perm (f : List String → List String) (hf : ∀ l, (f l).Perm l)
    (l : List String) : (safeShuffle f l).Perm l := by
  unfold safeShuffle
  by_cases h : l.length ≤ 1
  · simp [h]
  · simpa [h] using hf l

theorem safeShuffle_ne_nil (f : List String → List String) (hf : ∀ l, (f l).Perm l)
    (l : List String) (hne : l ≠ []) : safeShuffle f l ≠ [] := by
  intro h
  apply hne
  have := (safeShuffle_perm f hf l).length_eq
  rw [h] at this
  exact List.length_eq_zero.mp this.symm

theorem lookup_mapInsert_self {β : Type} (k : String) (v : β) (m : List (String × β)) :
    List.lookup k (mapInsert k v m) = some v := by
  simp [mapInsert, List.lookup]

/-! Lemmas on the inner address loop. -/

theorem tryIPs_req (send : Request → Except GoError Response) (host port : String) :
    ∀ (l : List String) (req : Request) (fe : Option GoError),
      (tryIPs send host port l req fe).1 = ((tryIPsSends send host port l).getLast?).getD req := by
  intro l
  induction l with
  | nil => intro req fe; rfl
  | cons ip rest ih =>
    intro req fe
    cases hs : send (attemptRequest host port ip) with
    | ok resp => simp [tryIPs, tryIPsSends, hs]
    | error e =>
      cases hr : isRetryableError e with
      | false => simp [tryIPs, tryIPsSends, hs, hr]
      | true => simp [tryIPs, tryIPsSends, hs, hr, ih, getLastD_cons]

theorem tryIPs_finalErr (send : Request → Except GoError Response) (host port : String) :
    ∀ (l : List String) (req : Request) (fe : Option GoError),
      (tryIPs send host port l req fe).2.1 = none →
      (tryIPs send host port l req fe).2.2 = lastErrOr fe (tryIPsErrors send host port l) := by
  intro l
  induction l with
  | nil => intro req fe _; rfl
  | cons ip rest ih =>
    intro req fe hnone
    cases hs : send (attemptRequest host port ip) with
    | ok resp => simp [tryIPs, hs] at hnone
    | error e =>
      cases hr : isRetryableError e with
      | false => simp [tryIPs, hs, hr] at hnone
      | true =>
        simp only [tryIPs, hs, hr, if_true, tryIPsErrors, lastErrOr]
        apply ih
        simpa [tryIPs, hs, hr] using hnone

theorem tryIPsErrors_ne_nil (send : Request → Except GoError Response) (host port : String)
    (l : List String) (req : Request) (fe : Option GoError) (hl : l ≠ [])
    (hnone : (tryIPs send host port l req fe).2.1 = none) :
    tryIPsErrors send host port l ≠ [] := by
  cases l with
  | nil => exact absurd rfl hl
  | cons ip rest =>
    cases hs : send (attemptRequest host port ip) with
    | ok resp => simp [tryIPs, hs] at hnone
    | error e =>
      cases hr : isRetryableError e with
      | false => simp [tryIPs, hs, hr] at hnone
      | true => simp [tryIPsErrors, hs, hr]

theorem tryIPsSends_host (send : Request → Except GoError Response) (host port : String) :
    ∀ (l : List String) (r : Request), r ∈ tryIPsSends send host port l → r.host = host := by
  intro l
  induction l with
  | nil => intro r hr; simp [tryIPsSends] at hr
  | cons ip rest ih =>
    intro r hr
    cases hs : send (attemptRequest host port ip) with
    | ok resp =>
      simp [tryIPsSends, hs] at hr
      simp [hr, attemptRequest]
    | error e =>
      cases hr' : isRetryableError e with
      | false =>
        simp [tryIPsSends, hs, hr'] at hr
        simp [hr, attemptRequest]
      | true =>
        simp [tryIPsSends, hs, hr'] at hr
        rcases hr with h | h
        · simp [h, attemptRequest]
        · exact ih r h

/-! Lemmas on one host-loop iteration. -/

theorem processHost_req (lookupHost : String → Except GoError (List String))
    (send : Request → Except GoError Response) (sh : List String → List String)
    (ttl now : Nat) (host : String) (st : DoState) :
    (processHost lookupHost send sh ttl now host st).1.req =
      ((processHostSends lookupHost send sh ttl now host st).getLast?).getD st.req := by
  unfold processHost processHostSends
  cases hch : cacheHit st.cachedExpiry st.cachedIPs now host with
  | some ips =>
    by_cases he : ips = []
    · simp [he]
    · simp [he, tryIPs_req]
  | none =>
    cases hres : lookupHost (hostDomain host) with
    | error e => simp
    | ok ips =>
      by_cases he : ips = []
      · simp [he]
      · simp [he, tryIPs_req]

theorem processHost_finalErr (lookupHost : String → Except GoError (List String))
    (send : Request → Except GoError Response) (sh : List String → List String)
    (ttl now : Nat) (host : String) (st : DoState)
    (hnone : (processHost lookupHost send sh ttl now host st).2 = none) :
    (processHost lookupHost send sh ttl now host st).1.finalErr =
      lastErrOr st.finalErr (processHostErrors lookupHost send sh ttl now host st) := by
  unfold processHost processHostErrors
  unfold processHost at hnone
  cases hch : cacheHit st.cachedExpiry st.cachedIPs now host with
  | some ips =>
    rw [hch] at hnone
    by_cases he : ips = []
    · simp [he, lastErrOr]
    · simp only [List.isEmpty_iff, he, if_false] at hnone ⊢
      exact tryIPs_finalErr send host (hostPort host) _ st.req st.finalErr hnone
  | none =>
    rw [hch] at hnone
    cases hres : lookupHost (hostDomain host) with
    | error e => simp [lastErrOr]
    | ok ips =>
      rw [hres] at hnone
      by_cases he : ips = []
      · simp [he, lastErrOr]
      · simp only [List.isEmpty_iff, he, if_false] at hnone ⊢
        exact tryIPs_finalErr send host (hostPort host) _ st.req st.finalErr hnone

theorem processHostErrors_ne_nil (lookupHost : String → Except GoError (List String))
    (send : Request → Except GoError Response) (sh : List String → List String)
    (ttl now : Nat) (host : String) (st : DoState)
    (hperm : ∀ l, (sh l).Perm l)
    (hnone : (processHost lookupHost send sh ttl now host st).2 = none) :
    processHostErrors lookupHost send sh ttl now host st ≠ [] := by
  unfold processHostErrors
  unfold processHost at hnone
  cases hch : cacheHit st.cachedExpiry st.cachedIPs now host with
  | some ips =>
    rw [hch] at hnone
    by_cases he : ips = []
    · simp [he]
    · simp only [List.isEmpty_iff, he, if_false] at hnone ⊢
      exact tryIPsErrors_ne_nil send host (hostPort host) _ st.req st.finalErr
        (safeShuffle_ne_nil sh hperm ips he) hnone
  | none =>
    rw [hch] at hnone
    cases hres : lookupHost (hostDomain host) with
    | error e => simp
    | ok ips =>
      rw [hres] at hnone
      by_cases he : ips = []
      · simp [he]
      · simp only [List.isEmpty_iff, he, if_false] at hnone ⊢
        exact tryIPsErrors_ne_nil send host (hostPort host) _ st.req st.finalErr
          (safeShuffle_ne_nil sh hperm ips he) hnone

theorem processHostSends_host (lookupHost : String → Except GoError (List String))
    (send : Request → Except GoError Response) (sh : List String → List String)
    (ttl now : Nat) (host : String) (st : DoState) (r : Request)
    (hr : r ∈ processHostSends lookupHost send sh ttl now host st) : r.host = host := by
  unfold processHostSends at hr
  cases hch : cacheHit st.cachedExpiry st.cachedIPs now host with
  | some ips =>
    rw [hch] at hr
    by_cases he : ips = []
    · simp [he] at hr
    · simp only [List.isEmpty_iff, he, if_false] at hr
      exact tryIPsSends_host send host (hostPort host) _ r hr
  | none =>
    rw [hch] at hr
    cases hres : lookupHost (hostDomain host) with
    | error e => rw [hres] at hr; simp at hr
    | ok ips =>
      rw [hres] at hr
      by_cases he : ips = []
      · simp [he] at hr
      · simp only [List.isEmpty_iff, he, if_false] at hr
        exact tryIPsSends_host send host (hostPort host) _ r hr

/-! Lemmas on the host loop. -/

theorem doHosts_req (lookupHost : String → Except GoError (List String))
    (send : Request → Except GoError Response) (sh : List String → List String)
    (ttl now : Nat) :
    ∀ (l : List String) (st : DoState),
      (doHosts lookupHost send sh ttl now l st).1.req =
        ((doHostsSends lookupHost send sh ttl now l st).getLast?).getD st.req := by
  intro l
  induction l with
  | nil => intro st; rfl
  | cons host rest ih =>
    intro st
    rcases hp : processHost lookupHost send sh ttl now host st with ⟨st₁, oans⟩
    have hreq : st₁.req = ((processHostSends lookupHost send sh ttl now host st).getLast?).getD st.req := by
      have := processHost_req lookupHost send sh ttl now host st
      rw [hp] at this
      exact this
    cases oans with
    | some a => simp [doHosts, doHostsSends, hp, hreq]
    | none => simp [doHosts, doHostsSends, hp, ih, hreq, option_or_getD]

theorem doHosts_finalErr (lookupHost : String → Except GoError (List String))
    (send : Request → Except GoError Response) (sh : List String → List String)
    (ttl now : Nat) :
    ∀ (l : List String) (st : DoState),
      (doHosts lookupHost send sh ttl now l st).2 = none →
      (doHosts lookupHost send sh ttl now l st).1.finalErr =
        lastErrOr st.finalErr (doHostsErrors lookupHost send sh ttl now l st) := by
  intro l
  induction l with
  | nil => intro st _; rfl
  | cons host rest ih =>
    intro st hnone
    rcases hp : processHost lookupHost send sh ttl now host st with ⟨st₁, oans⟩
    cases oans with
    | some a => simp [doHosts, hp] at hnone
    | none =>
      have hfe : st₁.finalErr = lastErrOr st.finalErr (processHostErrors lookupHost send sh ttl now host st) := by
        have := processHost_finalErr lookupHost send sh ttl now host st (by rw [hp])
        rw [hp] at this
        exact this
      have hnone' : (doHosts lookupHost send sh ttl now rest st₁).2 = none := by
        simpa [doHosts, hp] using hnone
      have hrec := ih st₁ hnone'
      simp only [doHosts, doHostsErrors, hp]
      rw [hrec, hfe, lastErrOr_append]

theorem doHostsErrors_ne_nil (lookupHost : String → Except GoError (List String))
    (send : Request → Except GoError Response) (sh : List String → List String)
    (ttl now : Nat) (hperm : ∀ l, (sh l).Perm l) :
    ∀ (l : List String) (st : DoState), l ≠ [] →
      (doHosts lookupHost send sh ttl now l st).2 = none →
      doHostsErrors lookupHost send sh ttl now l st ≠ [] := by
  intro l
  cases l with
  | nil => intro st h; exact absurd rfl h
  | cons host rest =>
    intro st _ hnone
    rcases hp : processHost lookupHost send sh ttl now host st with ⟨st₁, oans⟩
    cases oans with
    | some a => simp [doHosts, hp] at hnone
    | none =>
      have hes : processHostErrors lookupHost send sh ttl now host st ≠ [] :=
        processHostErrors_ne_nil lookupHost send sh ttl now host st hperm (by rw [hp])
      simp [doHostsErrors, hp, hes]

theorem doHostsSends_host (lookupHost : String → Except GoError (List String))
    (send : Request → Except GoError Response) (sh : List String → List String)
    (ttl now : Nat) :
    ∀ (l : List String) (st : DoState) (r : Request),
      r ∈ doHostsSends lookupHost send sh ttl now l st → r.host ∈ l := by
  intro l
  induction l with
  | nil => intro st r hr; simp [doHostsSends] at hr
  | cons host rest ih =>
    intro st r hr
    rcases hp : processHost lookupHost send sh ttl now host st with ⟨st₁, oans⟩
    cases oans with
    | some a =>
      simp only [doHostsSends, hp] at hr
      simp [processHostSends_host lookupHost send sh ttl now host st r hr]
    | none =>
      simp only [doHostsSends, hp, List.mem_append] at hr
      rcases hr with h | h
      · simp [processHostSends_host lookupHost send sh ttl now host st r h]
      · exact List.mem_cons_of_mem host (ih st₁ r h)

/-! Lemmas on the connection-level dial loop. -/

theorem dialLoop_acc (dial : String → String → Except GoError Conn) (network port : String)
    (ip : String) (rest : List String) (acc : Option GoError) :
    dialLoop dial network port (ip :: rest) acc = dialLoop dial network port (ip :: rest) none := by
  cases h : dial network (joinHostPort ip port) <;> simp [dialLoop, h]

theorem firstSuccessElseLast_cons (dial : String → Except GoError Conn) (ip : String)
    (rest : List String) (hfail : exceptOk (dial ip) = false) (hne : rest ≠ []) :
    firstSuccessElseLast dial (ip :: rest) = firstSuccessElseLast dial rest := by
  cases rest with
  | nil => exact absurd rfl hne
  | cons b t =>
    unfold firstSuccessElseLast
    rw [List.find?_cons_of_neg _ (by simp [hfail]), List.getLast?_cons_cons]

theorem dialLoop_spec (dial : String → String → Except GoError Conn) (network port : String) :
    ∀ l : List String, l ≠ [] →
      dialLoop dial network port l none =
        firstSuccessElseLast (fun ip => dial network (joinHostPort ip port)) l := by
  intro l
  induction l with
  | nil => intro h; exact absurd rfl h
  | cons ip rest ih =>
    intro _
    cases hd : dial network (joinHostPort ip port) with
    | ok c =>
      simp [dialLoop, firstSuccessElseLast, hd, List.find?_cons_of_pos, exceptOk]
    | error e =>
      cases rest with
      | nil => simp [dialLoop, firstSuccessElseLast, hd, exceptOk]
      | cons b t =>
        have hstep : dialLoop dial network port (ip :: b :: t) none
            = dialLoop dial network port (b :: t) none := by
          rw [show dialLoop dial network port (ip :: b :: t) none
              = dialLoop dial network port (b :: t) (some e) by simp [dialLoop, hd]]
          exact dialLoop_acc dial network port b t (some e)
        rw [hstep, ih (by simp),
          firstSuccessElseLast_cons _ ip (b :: t) (by simp [exceptOk, hd]) (by simp)]

/-! Lemma on the setup-time host collection. -/

theorem collectHosts_length (parseHost : String → Except GoError String) :
    ∀ (us hs : List String), collectHosts parseHost us = .ok hs → hs.length = us.length := by
  intro us
  induction us with
  | nil => intro hs h; simp [collectHosts] at h; simp [← h]
  | cons u us ih =>
    intro hs h
    cases hp : parseHost u with
    | error e => simp [collectHosts, hp] at h
    | ok hd =>
      cases hc : collectHosts parseHost us with
      | error e => simp [collectHosts, hp, hc] at h
      | ok tl =>
        simp [collectHosts, hp, hc] at h
        simp [← h, ih tl hc]

/-! Lemmas for the round-robin selector. -/

theorem getD_range_map (l : List String) (d : String) :
    (List.range l.length).map (fun j => l.getD j d) = l := by
  induction l with
  | nil => simp
  | cons a t ih =>
    simp only [List.length_cons, List.range_succ_eq_map, List.map_cons, List.getD_cons_zero,
      List.map_map]
    congr 1

theorem rr_index_perm (M i : Nat) (hM : 0 < M) :
    ((List.range M).map (fun k => (i + k) % M)).Perm (List.range M) := by
  apply List.Subperm.perm_of_length_le
  · apply List.subperm_of_subset
    · apply List.Nodup.map_on _ (List.nodup_range M)
      intro x hx y hy hxy
      rw [List.mem_range] at hx hy
      have h2 : x ≡ y [MOD M] := Nat.ModEq.add_left_cancel' i hxy
      have h3 : x % M = y % M := h2
      rwa [Nat.mod_eq_of_lt hx, Nat.mod_eq_of_lt hy] at h3
    · intro x hx
      simp only [List.mem_map, List.mem_range] at hx
      obtain ⟨k, _, rfl⟩ := hx
      exact List.mem_range.mpr (Nat.mod_lt _ hM)
  · simp

theorem rrDispatches_formula (baseURLs : List String) (uri : String)
    (hM : 1 < baseURLs.length) :
    ∀ (n i : Nat), i < baseURLs.length →
      rrDispatches baseURLs uri n i =
        (List.range n).map (fun k => baseURLs.getD ((i + k) % baseURLs.length) "" ++ uri) := by
  intro n
  induction n with
  | zero => intro i _; simp [rrDispatches]
  | succ n ih =>
    intro i hi
    have hM1 : ¬ baseURLs.length = 1 := by omega
    have hstep : rrDispatches baseURLs uri (n + 1) i
        = (baseURLs.getD i "" ++ uri)
          :: rrDispatches baseURLs uri n ((i + 1) % baseURLs.length) := by
      simp [rrDispatches, resolveURI, hM1, hM]
    rw [hstep, ih ((i + 1) % baseURLs.length) (Nat.mod_lt _ (by omega))]
    rw [List.range_succ_eq_map, List.map_cons, List.map_map]
    have harith : ∀ k, ((i + 1) % baseURLs.length + k) % baseURLs.length
        = (i + (k + 1)) % baseURLs.length := by
      intro k
      rw [Nat.mod_add_mod]
      congr 1
      omega
    congr 1
    · rw [Nat.add_zero, Nat.mod_eq_of_lt hi]
    · simp only [harith]
      rfl

/-! ## Claim theorems -/

/-- Claim C1, counterexample: with a single host `"h"` whose resolution
succeeds with zero addresses, `HTTPBalancer.Do` reports the
"no such host" failure but, contrary to the claim, it DOES write a
resolution-cache entry for `"h"`: the empty address list, with expiry
`now + TTL` (the cache write at src/request.go:518-521 precedes the
zero-address check at line 524). -/
theorem claim_C1_counterexample :
    List.lookup "h" (((newHTTPBalancer id id ["h"] 5).Do (fun _ => .ok [])
        (fun _ => .error (.simple "x")) 0 ⟨"a", "b"⟩).2.1.cachedIPs) = some []
    ∧ List.lookup "h" (((newHTTPBalancer id id ["h"] 5).Do (fun _ => .ok [])
        (fun _ => .error (.simple "x")) 0 ⟨"a", "b"⟩).2.1.cachedExpiry) = some 5
    ∧ ((newHTTPBalancer id id ["h"] 5).Do (fun _ => .ok [])
        (fun _ => .error (.simple "x")) 0 ⟨"a", "b"⟩).1
      = (none, some (newNoSuchHostError "h")) :=
  ⟨rfl, rfl, rfl⟩

/-- Claim C1, amended: for every host whose name resolution succeeds but
yields zero addresses (on a cache miss), `HTTPBalancer.Do` records a
"no such host" failure for that host and advances to the next host, but
it also writes the empty address list into the resolution cache for the
host, with expiry `now + TTL`; so a later lookup within the TTL can
return a cached zero-length address list. -/
theorem claim_C1_amended (lk : String → Except GoError (List String))
    (send : Request → Except GoError Response) (sh : List String → List String)
    (ttl now : Nat) (host : String) (st : DoState)
    (hmiss : cacheHit st.cachedExpiry st.cachedIPs now host = none)
    (hres : lk (hostDomain host) = .ok []) :
    processHost lk send sh ttl now host st =
      ({ st with cachedIPs := mapInsert host [] st.cachedIPs,
                 cachedExpiry := mapInsert host (now + ttl) st.cachedExpiry,
                 finalErr := some (newNoSuchHostError host) }, none) := by
  simp [processHost, hmiss, hres]

/-- Claim C1, witness for the amended theorem at a concrete input. -/
theorem claim_C1_witness :
    processHost (fun _ => .ok []) (fun _ => .ok 0) id 5 0 "h"
        ⟨[], [], ⟨"a", "b"⟩, none⟩ =
      (⟨[("h", [])], [("h", 5)], ⟨"a", "b"⟩, some (newNoSuchHostError "h")⟩, none) :=
  claim_C1_amended (fun _ => .ok []) (fun _ => .ok 0) id 5 0 "h"
    ⟨[], [], ⟨"a", "b"⟩, none⟩ rfl rfl

/-- Claim C2: inside `HTTPBalancer.Do`, an error `e` from the wrapped
sender is classified retryable iff it is (via the unwrap chain) a
`net.OpError` with `Op = "dial"`; a non-retryable error makes the inner
loop return `(nil, e)` at once, ignoring the remaining addresses; a
retryable error is recorded into `finalErr` and the loop continues with
the next address; and a host iteration that returns early ends the
whole host loop, so no remaining host is attempted. -/
theorem claim_C2_retry_policy (send : Request → Except GoError Response)
    (host port ip : String) (rest : List String) (req : Request)
    (fe : Option GoError) (e : GoError)
    (hsend : send (attemptRequest host port ip) = .error e) :
    (isRetryableError e = true ↔ errorsAsOpError e = some "dial")
    ∧ (isRetryableError e = false →
        tryIPs send host port (ip :: rest) req fe
          = (attemptRequest host port ip, some (none, some e), fe))
    ∧ (isRetryableError e = true →
        tryIPs send host port (ip :: rest) req fe
          = tryIPs send host port rest (attemptRequest host port ip) (some e))
    ∧ (∀ (lk : String → Except GoError (List String)) (sh : List String → List String)
         (ttl now : Nat) (hosts : List String) (st st₁ : DoState)
         (a : Option Response × Option GoError),
        processHost lk send sh ttl now host st = (st₁, some a) →
        doHosts lk send sh ttl now (host :: hosts) st = (st₁, some a)) := by
  refine ⟨?_, ?_, ?_, ?_⟩
  · cases h : errorsAsOpError e <;> simp [isRetryableError, h]
  · intro hr; simp [tryIPs, hsend, hr]
  · intro hr; simp [tryIPs, hsend, hr]
  · intro lk sh ttl now hosts st st₁ a hp
    simp [doHosts, hp]

/-- Claim C2, witness: a non-dial error aborts the inner loop at once. -/
theorem claim_C2_witness :
    tryIPs (fun _ => .error (.simple "boom")) "h" "80" ["1.1.1.1", "2.2.2.2"]
        ⟨"a", "b"⟩ none
      = (attemptRequest "h" "80" "1.1.1.1", some (none, some (.simple "boom")), none) :=
  (claim_C2_retry_policy (fun _ => .error (.simple "boom")) "h" "80" "1.1.1.1"
    ["2.2.2.2"] ⟨"a", "b"⟩ none (.simple "boom") rfl).2.1 rfl

/-- Claim C7: enabling request-level balancing with zero configured base
URLs fails at setup time with the fatal configuration panic, and every
successfully constructed `HTTPBalancer` has a non-empty host set. -/
theorem claim_C7_setup_validation (parseHost : String → Except GoError String)
    (shuffleHosts shuffleIPs : List String → List String) (cacheExpire : Nat) :
    enableHTTPBalance parseHost shuffleHosts shuffleIPs [] cacheExpire
      = .error (.message "http balancer requires base urls")
    ∧ ∀ (baseURLs : List String) (lb : HTTPBalancer),
        enableHTTPBalance parseHost shuffleHosts shuffleIPs baseURLs cacheExpire = .ok lb →
        lb.hosts ≠ [] := by
  constructor
  · rfl
  · intro baseURLs lb h
    unfold enableHTTPBalance at h
    by_cases hb : baseURLs.isEmpty
    · simp [hb] at h
    · rw [if_neg (by simpa using hb)] at h
      cases hc : collectHosts parseHost baseURLs with
      | error e => rw [hc] at h; simp at h
      | ok hosts =>
        rw [hc] at h
        have hlen := collectHosts_length parseHost baseURLs hosts hc
        have hbne : baseURLs ≠ [] := by simpa [List.isEmpty_iff] using hb
        have hlb : lb.hosts = hosts := by
          injection h with h'
          rw [← h']
          rfl
        rw [hlb]
        intro hnil
        rw [hnil] at hlen
        exact hbne (List.length_eq_zero.mp hlen.symm)

/-- Claim C7, witness at a concrete input. -/
theorem claim_C7_witness : (newHTTPBalancer id id ["a"] 0).hosts ≠ [] :=
  (claim_C7_setup_validation (fun u => .ok u) id id 0).2 ["a"]
    (newHTTPBalancer id id ["a"] 0) rfl

/-- Claim C9: an `HTTPBalancer` constructed with an empty host list
returns `(nil, nil)` from every `Do` call — the host loop never runs, no
attempt is made, no error is recorded, and neither the caches nor the
request are touched. -/
theorem claim_C9_empty_hosts (shuffleHosts shuffleIPs : List String → List String)
    (ttl : Nat) (lk : String → Except GoError (List String))
    (send : Request → Except GoError Response) (now : Nat) (req : Request) :
    (newHTTPBalancer shuffleHosts shuffleIPs [] ttl).Do lk send now req
      = ((none, none), newHTTPBalancer shuffleHosts shuffleIPs [] ttl, req) :=
  rfl

/-- Claim C3: when the host list is non-empty and the host loop falls
through without an early return (every host's resolution failed, yielded
zero addresses, or every address attempt failed retryably), the error
trace of the run is non-empty and `HTTPBalancer.Do` returns `nil`
together with the LAST error encountered during the iteration. -/
theorem claim_C3_last_error (lb : HTTPBalancer)
    (lk : String → Except GoError (List String))
    (send : Request → Except GoError Response) (now : Nat) (req : Request) (st' : DoState)
    (hne : lb.hosts ≠ [])
    (hpermH : ∀ l, (lb.shuffleHosts l).Perm l)
    (hpermI : ∀ l, (lb.shuffleIPs l).Perm l)
    (hrun : doHosts lk send lb.shuffleIPs lb.cacheTTL now (doHostsList lb) (initState lb req)
      = (st', none)) :
    doHostsErrors lk send lb.shuffleIPs lb.cacheTTL now (doHostsList lb) (initState lb req) ≠ []
    ∧ lb.Do lk send now req =
        ((none, (doHostsErrors lk send lb.shuffleIPs lb.cacheTTL now (doHostsList lb)
            (initState lb req)).getLast?),
         { lb with cachedIPs := st'.cachedIPs, cachedExpiry := st'.cachedExpiry }, st'.req) := by
  have hlne : doHostsList lb ≠ [] := by
    unfold doHostsList
    by_cases h : lb.hosts.length > 1
    · simp only [h, if_true]
      intro h0
      have hl := (hpermH lb.hosts).length_eq
      rw [h0] at hl
      exact hne (List.length_eq_zero.mp hl.symm)
    · simpa [h] using hne
  have hen : doHostsErrors lk send lb.shuffleIPs lb.cacheTTL now (doHostsList lb)
      (initState lb req) ≠ [] :=
    doHostsErrors_ne_nil lk send lb.shuffleIPs lb.cacheTTL now hpermI (doHostsList lb)
      (initState lb req) hlne (by rw [hrun])
  refine ⟨hen, ?_⟩
  have hfe := doHosts_finalErr lk send lb.shuffleIPs lb.cacheTTL now (doHostsList lb)
    (initState lb req) (by rw [hrun])
  rw [hrun] at hfe
  have hini : (initState lb req).finalErr = none := rfl
  rw [hini] at hfe
  have hlast := lastErrOr_eq_getLast _ hen none
  simp only [HTTPBalancer.Do, hrun]
  rw [hfe, hlast]

/-- Claim C3, witness: one host whose resolution always fails. -/
theorem claim_C3_witness :
    doHostsErrors (fun _ => .error (.simple "dns down")) (fun _ => .ok 0) id 5 0
      (doHostsList (newHTTPBalancer id id ["h"] 5))
      (initState (newHTTPBalancer id id ["h"] 5) ⟨"a", "b"⟩) ≠ [] :=
  (claim_C3_last_error (newHTTPBalancer id id ["h"] 5) (fun _ => .error (.simple "dns down"))
    (fun _ => .ok 0) 0 ⟨"a", "b"⟩ ⟨[], [], ⟨"a", "b"⟩, some (.simple "dns down")⟩
    (by simp [newHTTPBalancer]) (fun l => List.Perm.refl l) (fun l => List.Perm.refl l) rfl).1

/-- Claim C4: when the address splits into host and port and resolution
yields a non-empty address list, `DNSBalancer.DialContext` behaves as
"first successful dial in the shuffled order wins, else the last dial
error is returned": it equals the spec-level `firstSuccessElseLast`
applied to the shuffled address list of that single host (no other host
enters the computation). -/
theorem claim_C4_dial_refinement (lb : DNSBalancer)
    (lk : String → Except GoError (List String)) (network addr host port : String)
    (ips : List String)
    (hsplit : splitHostPort addr = .ok (host, port))
    (hlookup : lk host = .ok ips)
    (hne : ips ≠ [])
    (hperm : ∀ l, (lb.shuffle l).Perm l) :
    lb.DialContext lk network addr
      = firstSuccessElseLast (fun ip => lb.dialContext network (joinHostPort ip port))
          (safeShuffle lb.shuffle ips) := by
  simp only [DNSBalancer.DialContext, hsplit, hlookup, List.isEmpty_iff, hne,
    if_false]
  exact dialLoop_spec lb.dialContext network port (safeShuffle lb.shuffle ips)
    (safeShuffle_ne_nil lb.shuffle hperm ips hne)

/-- Claim C4, witness: two addresses, the second one dialable. -/
theorem claim_C4_witness :
    DNSBalancer.DialContext
        ⟨id, fun _ a => if a = "2.2.2.2:80" then .ok 7 else .error (.opError "dial" "refused")⟩
        (fun _ => .ok ["1.1.1.1", "2.2.2.2"]) "tcp" "h:80"
      = firstSuccessElseLast
          (fun ip => if joinHostPort ip "80" = "2.2.2.2:80" then .ok 7
            else .error (.opError "dial" "refused"))
          (safeShuffle id ["1.1.1.1", "2.2.2.2"]) :=
  claim_C4_dial_refinement
    ⟨id, fun _ a => if a = "2.2.2.2:80" then .ok 7 else .error (.opError "dial" "refused")⟩
    (fun _ => .ok ["1.1.1.1", "2.2.2.2"]) "tcp" "h:80" "h" "80" ["1.1.1.1", "2.2.2.2"]
    rfl rfl (by simp) (fun l => List.Perm.refl l)

/-- Claim C5: for every host processed by `HTTPBalancer.Do` (one
`processHost` step): on a cache hit whose expiry is still in the future
the cached list is used — the step is independent of the resolver and
leaves both cache maps untouched; on a miss (absent or not-in-the-future
entry) a fresh resolution is performed and, on success, the result is
stored for that host with expiry `now + TTL`, overwriting any prior
entry (the stored list is the resolution result up to the in-place
shuffle, hence a permutation of it). -/
theorem claim_C5_cache_policy
    (send : Request → Except GoError Response) (sh : List String → List String)
    (ttl now : Nat) (host : String) (st : DoState)
    (hperm : ∀ l, (sh l).Perm l) :
    (∀ (exp : Nat) (ips : List String),
      List.lookup host st.cachedExpiry = some exp → now < exp →
      List.lookup host st.cachedIPs = some ips →
      (∀ lk₁ lk₂ : String → Except GoError (List String),
        processHost lk₁ send sh ttl now host st = processHost lk₂ send sh ttl now host st)
      ∧ ∀ lk : String → Except GoError (List String),
          (processHost lk send sh ttl now host st).1.cachedIPs = st.cachedIPs
          ∧ (processHost lk send sh ttl now host st).1.cachedExpiry = st.cachedExpiry)
    ∧ (∀ (lk : String → Except GoError (List String)) (ips : List String),
        cacheHit st.cachedExpiry st.cachedIPs now host = none →
        lk (hostDomain host) = .ok ips →
        List.lookup host (processHost lk send sh ttl now host st).1.cachedExpiry
          = some (now + ttl)
        ∧ ∃ l, List.lookup host (processHost lk send sh ttl now host st).1.cachedIPs = some l
            ∧ l.Perm ips) := by
  constructor
  · intro exp ips hexp hlt hips
    have hch : cacheHit st.cachedExpiry st.cachedIPs now host = some ips := by
      simp [cacheHit, hexp, hlt, hips]
    constructor
    · intro lk₁ lk₂
      simp [processHost, hch]
    · intro lk
      by_cases he : ips = [] <;> simp [processHost, hch, he]
  · intro lk ips hch hres
    by_cases he : ips = []
    · subst he
      exact ⟨by simp [processHost, hch, hres, lookup_mapInsert_self],
        ⟨[], by simp [processHost, hch, hres, lookup_mapInsert_self], List.Perm.refl []⟩⟩
    · exact ⟨by simp [processHost, hch, hres, he, lookup_mapInsert_self],
        ⟨safeShuffle sh ips,
          by simp [processHost, hch, hres, he, lookup_mapInsert_self],
          safeShuffle_perm sh hperm ips⟩⟩

/-- Claim C5, witness: a fresh resolution is cached with expiry
`now + ttl` at a concrete input. -/
theorem claim_C5_witness :
    List.lookup "h" (processHost (fun _ => .ok ["1.1.1.1", "2.2.2.2"]) (fun _ => .ok 0) id 7 0 "h"
        ⟨[], [], ⟨"a", "b"⟩, none⟩).1.cachedExpiry = some 7
    ∧ ∃ l, List.lookup "h" (processHost (fun _ => .ok ["1.1.1.1", "2.2.2.2"]) (fun _ => .ok 0)
        id 7 0 "h" ⟨[], [], ⟨"a", "b"⟩, none⟩).1.cachedIPs = some l
        ∧ l.Perm ["1.1.1.1", "2.2.2.2"] :=
  (claim_C5_cache_policy (fun _ => .ok 0) id 7 0 "h" ⟨[], [], ⟨"a", "b"⟩, none⟩
    (fun l => List.Perm.refl l)).2 (fun _ => .ok ["1.1.1.1", "2.2.2.2"])
    ["1.1.1.1", "2.2.2.2"] rfl rfl

/-- Claim C6: a `Do` call on a balancer with more than one configured
host leaves the stored host list unchanged (only a copy is shuffled),
and every request it dispatches targets a host of the configured list. -/
theorem claim_C6_host_frame (lb : HTTPBalancer)
    (lk : String → Except GoError (List String))
    (send : Request → Except GoError Response) (now : Nat) (req : Request)
    (hM : 1 < lb.hosts.length)
    (hpermH : ∀ l, (lb.shuffleHosts l).Perm l) :
    (lb.Do lk send now req).2.1.hosts = lb.hosts
    ∧ ∀ r ∈ DoSends lb lk send now req, r.host ∈ lb.hosts := by
  constructor
  · rcases h : doHosts lk send lb.shuffleIPs lb.cacheTTL now (doHostsList lb)
        (initState lb req) with ⟨st, oans⟩
    cases oans <;> simp [HTTPBalancer.Do, h]
  · intro r hr
    have hmem := doHostsSends_host lk send lb.shuffleIPs lb.cacheTTL now (doHostsList lb)
      (initState lb req) r hr
    unfold doHostsList at hmem
    rw [if_pos hM] at hmem
    exact ((hpermH lb.hosts).mem_iff).mp hmem

/-- Claim C6, witness at a concrete two-host balancer. -/
theorem claim_C6_witness :
    ((newHTTPBalancer id id ["h:80", "g:80"] 5).Do (fun _ => .ok ["1.1.1.1"]) (fun _ => .ok 0)
        0 ⟨"a", "b"⟩).2.1.hosts = ["h:80", "g:80"]
    ∧ ∀ r ∈ DoSends (newHTTPBalancer id id ["h:80", "g:80"] 5) (fun _ => .ok ["1.1.1.1"])
        (fun _ => .ok 0) 0 ⟨"a", "b"⟩, r.host ∈ ["h:80", "g:80"] :=
  claim_C6_host_frame (newHTTPBalancer id id ["h:80", "g:80"] 5) (fun _ => .ok ["1.1.1.1"])
    (fun _ => .ok 0) 0 ⟨"a", "b"⟩ (by simp [newHTTPBalancer]) (fun l => List.Perm.refl l)

/-- Claim C8: with `M > 1` configured base URLs and no balancer, `M`
consecutive non-interleaved scheme-less dispatches through `Client.Do`'s
counter-modulo-M selection touch every configured base URL exactly once:
the dispatched URI list is a permutation of all base URLs with the URI
appended. -/
theorem claim_C8_round_robin (baseURLs : List String) (uri : String) (i : Nat)
    (hM : 1 < baseURLs.length) (hi : i < baseURLs.length) :
    (rrDispatches baseURLs uri baseURLs.length i).Perm
      (baseURLs.map (fun s => s ++ uri)) := by
  rw [rrDispatches_formula baseURLs uri hM baseURLs.length i hi]
  have h1 : (List.range baseURLs.length).map
        (fun k => baseURLs.getD ((i + k) % baseURLs.length) "" ++ uri)
      = ((List.range baseURLs.length).map (fun k => (i + k) % baseURLs.length)).map
          (fun j => baseURLs.getD j "" ++ uri) := by
    rw [List.map_map]
    rfl
  rw [h1]
  have hp := (rr_index_perm baseURLs.length i (by omega)).map
    (fun j => baseURLs.getD j "" ++ uri)
  refine hp.trans ?_
  have h2 : (List.range baseURLs.length).map (fun j => baseURLs.getD j "" ++ uri)
      = baseURLs.map (fun s => s ++ uri) := by
    conv_rhs => rw [← getD_range_map baseURLs ""]
    rw [List.map_map]
    rfl
  rw [h2]

/-- Claim C8, witness: three base URLs starting at counter 1. -/
theorem claim_C8_witness :
    (rrDispatches ["a", "b", "c"] "/x" 3 1).Perm
      (["a", "b", "c"].map (fun s => s ++ "/x")) :=
  claim_C8_round_robin ["a", "b", "c"] "/x" 1 (by simp) (by simp)

/-- Claim C10: `HTTPBalancer.Do` leaves the caller's request mutated: the
request after the call equals the request of the LAST attempt handed to
the wrapped sender (its `Host` the logical host, its `URL.Host` the
concrete address of that attempt) — it is not restored; when no attempt
was made it is unchanged.  This holds on success and on failure alike. -/
theorem claim_C10_request_mutation (lb : HTTPBalancer)
    (lk : String → Except GoError (List String))
    (send : Request → Except GoError Response) (now : Nat) (req : Request) :
    (lb.Do lk send now req).2.2 = ((DoSends lb lk send now req).getLast?).getD req := by
  rcases h : doHosts lk send lb.shuffleIPs lb.cacheTTL now (doHostsList lb)
      (initState lb req) with ⟨st, oans⟩
  have hreq := doHosts_req lk send lb.shuffleIPs lb.cacheTTL now (doHostsList lb)
    (initState lb req)
  rw [h] at hreq
  simp only [initState] at hreq
  cases oans <;> simp only [HTTPBalancer.Do, h, DoSends] <;> exact hreq

end FaceairRequest
